import Mathlib

/-!
Verification of the gallery renderer in `assets/js/gallery.js`.

The script ships in two variants (a richer one with masonry layout and
responsive picture elements, and a simpler one).  The tab/panel controller,
keyboard handling, hash synchronisation and featured-strip logic are
identical across variants; `prioritizeCategories` and `layoutMasonry`
exist only in the richer variant.  The definitions below are a shallow
embedding of that code: JavaScript strings become `String`, arrays become
`List`, DOM nodes become records of the attributes the script touches,
and the (single) asynchronous fetch becomes an explicit `Option Manifest`
argument to the render entry points.
-/

set_option autoImplicit false

namespace Gallery

/-- A category from the JSON manifest: `{ name, title?, images }`.
`title` is optional in the manifest, hence `Option String`. -/
structure Category where
  name : String
  title : Option String
  images : List String
  deriving Repr, DecidableEq

/-- The JSON manifest: `{ basePath, categories }`. -/
structure Manifest where
  basePath : String
  categories : List Category
  deriving Repr, DecidableEq

/-- Source constant `MASONRY_ROW_HEIGHT = 8` (used as a pixel length, so embedded in ℚ). -/
def MASONRY_ROW_HEIGHT : ℚ := 8

/-- Source constant `CATEGORY_ORDER`: the fixed preferred category priority list. -/
def CATEGORY_ORDER : List String :=
  ["portraits", "photo-tours", "landscapes", "brand-creative", "food"]

/-- The `CATEGORY_TITLES` object literal, as a partial lookup by name. -/
def CATEGORY_TITLES : String → Option String := fun n =>
  if n = "portraits" then some "Portraits"
  else if n = "photo-tours" then some "Photo Tours"
  else if n = "landscapes" then some "Landscape"
  else if n = "brand-creative" then some "Brand & Creative"
  else if n = "food" then some "Food"
  else none

/-- JavaScript word character (`\w`): ASCII alphanumeric or underscore. -/
def isWordChar (c : Char) : Bool :=
  ('a' ≤ c && c ≤ 'z') || ('A' ≤ c && c ≤ 'Z') || ('0' ≤ c && c ≤ '9') || c = '_'

/-- One pass of the first regex in `humanize`, replacing each maximal run
of `-`/`_` characters by a single space.  The boolean records
whether the previous character belonged to such a run. -/
def collapseSepsAux : Bool → List Char → List Char
  | _, [] => []
  | prevSep, c :: rest =>
    if c = '-' || c = '_' then
      if prevSep then collapseSepsAux true rest
      else ' ' :: collapseSepsAux true rest
    else c :: collapseSepsAux false rest

/-- One pass of the second regex in `humanize`, upper-casing every word
character at a word boundary (start of string, or preceded by a
non-word character) is upper-cased.  The boolean records whether the
previous character was a word character. -/
def capitalizeAux : Bool → List Char → List Char
  | _, [] => []
  | prevWord, c :: rest =>
    (if isWordChar c && !prevWord then c.toUpper else c) ::
      capitalizeAux (isWordChar c) rest

/-- Function `humanize(name)`: collapse `-`/`_` runs to spaces, then
upper-case the first letter of every word. -/
def humanize (name : String) : String :=
  String.mk (capitalizeAux false (collapseSepsAux false name.data))

/-- JavaScript `a || b` on strings: the empty string is falsy. -/
def jsOr (a b : String) : String :=
  if a = "" then b else a

/-- JavaScript `a || b` where `a` is a possibly-absent string property
(`undefined` and `""` are both falsy). -/
def jsOrOpt (a : Option String) (b : String) : String :=
  match a with
  | some t => jsOr t b
  | none => b

/-- The filter `(allCategories || []).filter((cat) => cat.images && cat.images.length)`:
keep only categories with a non-empty image list. -/
def validCats (cats : List Category) : List Category :=
  cats.filter (fun c => !c.images.isEmpty)

/-- Lookup in the `Map` built from `valid` keyed by name: with duplicate
names the later entry overwrites the earlier one, so `get` returns the
last valid category bearing the name. -/
def byNameGet (valid : List Category) (n : String) : Option Category :=
  valid.reverse.find? (fun c => c.name = n)

/-- The title override `CATEGORY_TITLES[cat.name] || cat.title || humanize(cat.name)`
applied by `prioritizeCategories` to every category it returns. -/
def resolveTitle (c : Category) : String :=
  match CATEGORY_TITLES c.name with
  | some t => t
  | none => jsOrOpt c.title (humanize c.name)

/-- A category after `prioritizeCategories`: the spread `{ ...cat, title: ... }`
always produces a present string title. -/
structure ResolvedCategory where
  name : String
  title : String
  images : List String
  deriving Repr, DecidableEq

/-- The spread `{ ...cat, title: CATEGORY_TITLES[cat.name] || cat.title || humanize(cat.name) }`. -/
def retitle (c : Category) : ResolvedCategory :=
  { name := c.name, title := resolveTitle c, images := c.images }

/-- Source function `prioritizeCategories` (richer variant only): filter out
empty categories; build the priority projection
`CATEGORY_ORDER.map((name) => byName.get(name)).filter(Boolean)`; if that
is non-empty return it, otherwise return the valid categories in manifest
order; in both cases with the title override applied. -/
def prioritizeCategories (allCategories : List Category) : List ResolvedCategory :=
  let valid := validCats allCategories
  let prioritized := (CATEGORY_ORDER.filterMap (byNameGet valid)).map retitle
  if !prioritized.isEmpty then prioritized
  else valid.map retitle

/-- A rendered tab button, restricted to the attributes the script touches:
its id, its text label, `aria-selected` (stored as the string the script
writes) and `tabIndex`. -/
structure TabRender where
  id : String
  label : String
  ariaSelected : String
  tabIndex : Int
  deriving Repr, DecidableEq

/-- A figure produced by `figureFor(src, alt)`, restricted to the image
source and alt text. -/
structure FigureRender where
  src : String
  alt : String
  deriving Repr, DecidableEq

/-- A rendered tab panel: its id, its `hidden` property and the figures of
its gallery. -/
structure PanelRender where
  id : String
  hidden : Bool
  figures : List FigureRender
  deriving Repr, DecidableEq

/-- The mutable state of a rendered tab set: the tab buttons, the panels,
the current value of `location.hash` (raw, with its `#` when present) and
the index of the focused tab. -/
structure TabSetState where
  tabs : List TabRender
  panels : List PanelRender
  urlHash : String
  focused : Option Nat
  deriving Repr, DecidableEq

/-- The tab construction inside `cats.forEach`: id `tab-<name>`, label
`cat.title || humanize(cat.name)`, `aria-selected="false"`, `tabIndex = -1`. -/
def buildTab (c : ResolvedCategory) : TabRender :=
  { id := "tab-" ++ c.name
    label := jsOr c.title (humanize c.name)
    ariaSelected := "false"
    tabIndex := -1 }

/-- The image source `` `${manifest.basePath}/${cat.name}/${file}` ``. -/
def imageSrc (basePath catName file : String) : String :=
  basePath ++ "/" ++ catName ++ "/" ++ file

/-- The alt text `` `${cat.title || humanize(cat.name)} — Elle Phoenix` ``
for a resolved category. -/
def imageAlt (c : ResolvedCategory) : String :=
  jsOr c.title (humanize c.name) ++ " — Elle Phoenix"

/-- The panel construction inside `cats.forEach`: id `panel-<name>`, one
figure per image file, and `panel.hidden = true`. -/
def buildPanel (basePath : String) (c : ResolvedCategory) : PanelRender :=
  { id := "panel-" ++ c.name
    hidden := true
    figures := c.images.map (fun file =>
      { src := imageSrc basePath c.name file, alt := imageAlt c }) }

/-- The per-tab body of the forEach over tabs in `activate`: the
attribute `aria-selected` becomes the string true/false and `tabIndex`
becomes 0 or -1 according to whether the tab index equals `index`. -/
def setTabSelected (t : TabRender) (selected : Bool) : TabRender :=
  { t with
    ariaSelected := if selected then "true" else "false"
    tabIndex := if selected then 0 else -1 }

/-- Loop over `tabEls` from `activate`, with `k` the index of the first
element of the remaining list. -/
def activateTabsAux (index : Nat) : Nat → List TabRender → List TabRender
  | _, [] => []
  | k, t :: rest => setTabSelected t (k == index) :: activateTabsAux index (k + 1) rest

/-- Loop over `panelEls` from `activate`, setting `hidden` on every panel
whose index differs from `index`, with `k` the index of the first element
of the remaining list. -/
def activatePanelsAux (index : Nat) : Nat → List PanelRender → List PanelRender
  | _, [] => []
  | k, p :: rest => { p with hidden := k != index } :: activatePanelsAux index (k + 1) rest

/-- Access to `cats[index].name` (a valid index is assumed by the script;
out of range defaults to the empty string in this total model). -/
def catName (cats : List ResolvedCategory) (index : Nat) : String :=
  ((cats.get? index).map (fun c => c.name)).getD ""

/-- Transition `activate(index, setHash)`: select the tab at `index` and
deselect all others, hide every panel except the one at `index`, rewrite
the fragment when `setHash` is true (via `history.replaceState` or the
`location.hash` fallback, both of which leave `location.hash` equal to
the category name prefixed with a hash sign), and focus the activated tab.  The masonry recompute it also
triggers is modelled separately by `layoutMasonry`. -/
def activate (cats : List ResolvedCategory) (index : Nat) (setHash : Bool)
    (st : TabSetState) : TabSetState :=
  { tabs := activateTabsAux index 0 st.tabs
    panels := activatePanelsAux index 0 st.panels
    urlHash := if setHash then "#" ++ catName cats index else st.urlHash
    focused := some index }

/-- JavaScript `Array.prototype.findIndex`: the index of the first match,
`-1` when there is none. -/
def jsFindIndex (cats : List ResolvedCategory) (p : ResolvedCategory → Bool) : Int :=
  match cats.findIdx? p with
  | some j => j
  | none => -1

/-- Fragment stripping as done by the script on `location.hash`: remove
the first occurrence of the hash sign (and only the first), matching a
single `.replace` with a plain-string pattern. -/
def stripHashAux : List Char → List Char
  | [] => []
  | c :: rest => if c = '#' then rest else c :: stripHashAux rest

/-- Fragment stripping of `location.hash` as a string function. -/
def stripHash (s : String) : String :=
  String.mk (stripHashAux s.data)

/-- Initial index `Math.max(0, cats.findIndex(...))` comparing each
category name with the stripped load-time fragment. -/
def initialIndex (cats : List ResolvedCategory) (rawHash : String) : Nat :=
  (max 0 (jsFindIndex cats (fun c => c.name = stripHash rawHash))).toNat

/-- The `hashchange` listener: recompute the index of the category named
by the new fragment and, only when it is non-negative, `activate(idx, false)`. -/
def hashchangeHandler (cats : List ResolvedCategory) (newRawHash : String)
    (st : TabSetState) : TabSetState :=
  let idx := jsFindIndex cats (fun c => c.name = stripHash newRawHash)
  if 0 ≤ idx then activate cats idx.toNat false st else st

/-- The key dispatch of the keydown handler: `ArrowRight`/`ArrowLeft` move with
wraparound (computed exactly as the script does, `(i + 1) % n` and
`(i - 1 + n) % n` over JavaScript numbers, hence over ℤ here), `Home` and
`End` jump to the ends, any other key leaves `ni` at `null`. -/
def keydownNextIndex (key : String) (i n : Nat) : Option Nat :=
  if key = "ArrowRight" then some ((i + 1) % n)
  else if key = "ArrowLeft" then some ((((i : Int) - 1 + (n : Int)) % (n : Int)).toNat)
  else if key = "Home" then some 0
  else if key = "End" then some (n - 1)
  else none

/-- The whole keydown listener: when the key is one of the four handled
keys, `e.preventDefault()` is called (first component `true`) and
`activate(ni)` runs with its default `setHash = true`; otherwise nothing
happens. -/
def keydownStep (cats : List ResolvedCategory) (st : TabSetState) (i : Nat)
    (key : String) : Bool × TabSetState :=
  match keydownNextIndex key i st.tabs.length with
  | some ni => (true, activate cats ni true st)
  | none => (false, st)

/-- A child of the gallery container as seen by `layoutMasonry`: whether
its class list contains `gallery-item`, its measured rendered height
(`getBoundingClientRect().height`), and the row span currently written to
`style.gridRowEnd` (`none` before any layout pass). -/
structure GalleryItem where
  isGalleryItem : Bool
  height : ℚ
  gridRowSpan : Option Int
  deriving Repr, DecidableEq

/-- The gallery container as seen by `layoutMasonry`: `isConnected`,
the number of rendered layout boxes (`getClientRects().length`), the row
gap read from computed style (already parsed, with the `|| 0` fallback
applied), its children and the presence of the
`gallery-masonry-enabled` class. -/
structure GalleryBox where
  isConnected : Bool
  clientRectsCount : Nat
  rowGap : ℚ
  children : List GalleryItem
  masonryEnabledClass : Bool
  deriving Repr, DecidableEq

/-- The per-item body of `layoutMasonry`: compute
`Math.ceil((height + gap) / (MASONRY_ROW_HEIGHT + gap))` and write
`span Math.max(1, span)` to `style.gridRowEnd`; children that are not
gallery items are left untouched. -/
def layoutItem (gap : ℚ) (item : GalleryItem) : GalleryItem :=
  if item.isGalleryItem then
    { item with
      gridRowSpan := some (max 1 ⌈(item.height + gap) / (MASONRY_ROW_HEIGHT + gap)⌉) }
  else item

/-- Source function `layoutMasonry(gallery)` (richer variant only): return
immediately when the gallery is not connected or has no rendered layout
boxes; otherwise assign every gallery item its computed row span and add
the `gallery-masonry-enabled` class. -/
def layoutMasonry (g : GalleryBox) : GalleryBox :=
  if !g.isConnected then g
  else if g.clientRectsCount = 0 then g
  else
    { g with
      children := g.children.map (layoutItem g.rowGap)
      masonryEnabledClass := true }

/-- The flat list built by the nested forEach loops of `renderFeatured`,
pushing one `{ src, alt }` record per image, category by category in
manifest order.  `jsOrOpt` reflects that `renderFeatured` reads `cat.title`
straight from the manifest, where it may be absent. -/
def featuredFlat (m : Manifest) : List FigureRender :=
  m.categories.foldl
    (fun acc cat =>
      cat.images.foldl
        (fun acc2 file =>
          acc2 ++ [{ src := imageSrc m.basePath cat.name file
                     alt := jsOrOpt cat.title (humanize cat.name) ++ " — Elle Phoenix" }])
        acc)
    []

/-- The truncation `flat.slice(0, count)` of `renderFeatured` (for a
non-negative count, `slice(0, count)` takes the first `count` entries). -/
def featuredTake (m : Manifest) (count : Nat) : List FigureRender :=
  (featuredFlat m).take count

/-- The default value of the `count` parameter of `renderFeatured`. -/
def FEATURED_DEFAULT_COUNT : Nat := 6

/-- The outcome of one `renderPortfolio` call: whether the manifest fetch
was attempted, the status messages appended to the root, and the tab set
(with its state after the initial activation) when one was rendered. -/
structure PortfolioOutcome where
  fetched : Bool
  messages : List String
  tabSet : Option TabSetState
  deriving Repr, DecidableEq

/-- The outcome of one `renderFeatured` call: whether the manifest fetch
was attempted, the status messages appended to the root, and the figures
appended to the root. -/
structure FeaturedOutcome where
  fetched : Bool
  messages : List String
  figures : List FigureRender
  deriving Repr, DecidableEq

/-- The tab set as first built by `renderPortfolio` (all tabs deselected
with `tabIndex = -1`, all panels hidden), before the initial `activate`;
`rawHash` is the value of `location.hash` at load time. -/
def initialTabSet (m : Manifest) (cats : List ResolvedCategory)
    (rawHash : String) : TabSetState :=
  { tabs := cats.map buildTab
    panels := cats.map (buildPanel m.basePath)
    urlHash := rawHash
    focused := none }

/-- Entry point `renderPortfolio(rootId)` of the richer variant, with its
environment made explicit: `rootExists` is whether
`document.getElementById(rootId)` found the mount root, `fileProtocol` is
whether `location.protocol === "file:"` (in which case `loadManifest`
throws before fetching), `fetch` is the manifest when the fetch and JSON
parse succeed and `none` when they fail, and `rawHash` is `location.hash`
at load time.  Every thrown error is caught and converted to one status
message, so the call never throws. -/
def renderPortfolioRun (rootExists fileProtocol : Bool) (fetch : Option Manifest)
    (rawHash : String) : PortfolioOutcome :=
  if !rootExists then { fetched := false, messages := [], tabSet := none }
  else if fileProtocol then
    { fetched := false
      messages := ["Galleries need a local server. Run `make serve` and reload."]
      tabSet := none }
  else
    match fetch with
    | none => { fetched := true, messages := ["No images found."], tabSet := none }
    | some m =>
      let cats := prioritizeCategories m.categories
      if cats.isEmpty then
        { fetched := true, messages := ["No images found."], tabSet := none }
      else
        { fetched := true
          messages := []
          tabSet := some (activate cats (initialIndex cats rawHash) false
            (initialTabSet m cats rawHash)) }

/-- Entry point `renderFeatured(rootId, count)`, with its environment made
explicit as in `renderPortfolioRun`.  Its catch branch uses its own two
message texts. -/
def renderFeaturedRun (rootExists fileProtocol : Bool) (fetch : Option Manifest)
    (count : Nat) : FeaturedOutcome :=
  if !rootExists then { fetched := false, messages := [], figures := [] }
  else if fileProtocol then
    { fetched := false
      messages := ["Featured images need a local server. Run `make serve` and reload."]
      figures := [] }
  else
    match fetch with
    | none => { fetched := true, messages := ["No featured images found."], figures := [] }
    | some m => { fetched := true, messages := [], figures := featuredTake m count }

/-- Call of `renderFeatured` with its `count` argument omitted. -/
def renderFeaturedRunDefault (rootExists fileProtocol : Bool)
    (fetch : Option Manifest) : FeaturedOutcome :=
  renderFeaturedRun rootExists fileProtocol fetch FEATURED_DEFAULT_COUNT

theorem foldl_push_map {α β : Type} (f : α → β) :
    ∀ (l : List α) (init : List β),
      l.foldl (fun acc x => acc ++ [f x]) init = init ++ l.map f := by
  intro l
  induction l with
  | nil => intro init; simp
  | cons a rest ih => intro init; simp [ih]

theorem foldl_append_flatMap {α β : Type} (g : α → List β) :
    ∀ (l : List α) (init : List β),
      l.foldl (fun acc x => acc ++ g x) init = init ++ l.flatMap g := by
  intro l
  induction l with
  | nil => intro init; simp
  | cons a rest ih => intro init; simp [ih]

theorem featuredFlat_eq_flatMap (m : Manifest) :
    featuredFlat m = m.categories.flatMap (fun cat => cat.images.map (fun file =>
      { src := imageSrc m.basePath cat.name file
        alt := jsOrOpt cat.title (humanize cat.name) ++ " — Elle Phoenix" })) := by
  show m.categories.foldl _ [] = _
  simp only [featuredFlat, foldl_push_map]
  simp only [foldl_append_flatMap]
  simp

/-- Claim C10: when `document.getElementById(rootId)` finds no element,
both `renderPortfolio` and `renderFeatured` return at once: the manifest
is never fetched, no status message and no content is appended, and (the
functions being total here, with every error path caught) nothing is
thrown. -/
theorem missing_root_noop :
    ∀ (fileProtocol : Bool) (fetch : Option Manifest) (rawHash : String) (count : Nat),
      renderPortfolioRun false fileProtocol fetch rawHash
        = { fetched := false, messages := [], tabSet := none } ∧
      renderFeaturedRun false fileProtocol fetch count
        = { fetched := false, messages := [], figures := [] } := by
  intro fileProtocol fetch rawHash count
  exact ⟨rfl, rfl⟩

/-- Claim C4 (counterexample): on a non-local-file failure,
`renderFeatured` does not insert the message claimed for it; it inserts
its own text, which differs both from the claimed text and from what
`renderPortfolio` inserts on the same failure. -/
theorem renderFeatured_message_counterexample :
    (renderFeaturedRun true false none 6).messages = ["No featured images found."] ∧
    (renderFeaturedRun true false none 6).messages ≠ ["No images found"] ∧
    (renderFeaturedRun true false none 6).messages ≠ ["No images found."] ∧
    (renderFeaturedRun true false none 6).messages
      ≠ (renderPortfolioRun true false none "").messages := by
  refine ⟨rfl, ?_, ?_, ?_⟩ <;> decide

/-- Claim C4 (amended): `renderFeatured` follows the same failure-message
structure as `renderPortfolio` — a dedicated instruction to run a local
server under the local-file restriction, and a no-images status message on
any other failure — but with its own texts, which differ from the
portfolio texts. -/
theorem renderFeatured_failure_messages :
    ∀ (fetchA fetchB : Option Manifest) (count : Nat) (rawHash : String),
      (renderFeaturedRun true true fetchA count).messages
        = ["Featured images need a local server. Run `make serve` and reload."] ∧
      (renderFeaturedRun true false none count).messages = ["No featured images found."] ∧
      (renderPortfolioRun true true fetchB rawHash).messages
        = ["Galleries need a local server. Run `make serve` and reload."] ∧
      (renderPortfolioRun true false none rawHash).messages = ["No images found."] := by
  intro fetchA fetchB count rawHash
  exact ⟨rfl, rfl, rfl, rfl⟩

/-- Claim C8: `renderFeatured(containerId, count)` flattens all images of
all categories in manifest traversal order, takes the first
`min(count, total)` of them (with `count` defaulting to 6), and appends
one image element per taken entry in that order, each with source
`basePath / categoryName / filename`. -/
theorem renderFeatured_take (m : Manifest) (count : Nat) :
    featuredFlat m = m.categories.flatMap (fun cat => cat.images.map (fun file =>
      { src := m.basePath ++ "/" ++ cat.name ++ "/" ++ file
        alt := jsOrOpt cat.title (humanize cat.name) ++ " — Elle Phoenix" })) ∧
    (renderFeaturedRun true false (some m) count).figures = (featuredFlat m).take count ∧
    (renderFeaturedRun true false (some m) count).figures.length
      = min count (featuredFlat m).length ∧
    FEATURED_DEFAULT_COUNT = 6 ∧
    renderFeaturedRunDefault true false (some m) = renderFeaturedRun true false (some m) 6 := by
  refine ⟨featuredFlat_eq_flatMap m, rfl, ?_, rfl, rfl⟩
  show (featuredTake m count).length = _
  simp [featuredTake]

theorem validCats_eq_nil {cats : List Category} (h : ∀ c ∈ cats, c.images = []) :
    validCats cats = [] := by
  simp only [validCats, List.filter_eq_nil_iff]
  intro c hc
  simp [h c hc]

theorem byNameGet_nil (nm : String) : byNameGet [] nm = none := rfl

theorem prioritizeCategories_of_all_empty {cats : List Category}
    (h : ∀ c ∈ cats, c.images = []) : prioritizeCategories cats = [] := by
  simp [prioritizeCategories, validCats_eq_nil h, byNameGet_nil]

/-- Claim C5: for a manifest all of whose categories have empty image
lists, `renderPortfolio` appends exactly one status message, with text
"No images found.", and renders no tab set (no tabs and no panels). -/
theorem renderPortfolio_empty_manifest (m : Manifest) (rawHash : String)
    (h : ∀ c ∈ m.categories, c.images = []) :
    renderPortfolioRun true false (some m) rawHash
      = { fetched := true, messages := ["No images found."], tabSet := none } := by
  simp [renderPortfolioRun, prioritizeCategories_of_all_empty h]

/-- Witness for C5 at a one-category manifest with an empty image list. -/
theorem renderPortfolio_empty_manifest_witness :
    (∀ c ∈ [Category.mk "food" none []], c.images = ([] : List String)) ∧
    renderPortfolioRun true false (some (Manifest.mk "assets/images" [Category.mk "food" none []])) ""
      = { fetched := true, messages := ["No images found."], tabSet := none } :=
  ⟨by decide,
   renderPortfolio_empty_manifest (Manifest.mk "assets/images" [Category.mk "food" none []]) ""
     (by decide)⟩

theorem jsWrapLeft (i n : Nat) (hn : 0 < n) :
    ((((i : Int)) - 1 + (n : Int)) % (n : Int)).toNat = (i + (n - 1)) % n := by
  have h1 : ((i + (n - 1) : Nat) : Int) = (i : Int) - 1 + (n : Int) := by omega
  rw [← h1, ← Int.natCast_mod, Int.toNat_natCast]

/-- Claim C6: keydown dispatch on the focused tab at index `i` of `n`
tabs.  ArrowRight activates `(i + 1) % n` (so the last tab wraps to the
first), ArrowLeft activates `(i - 1 + n) % n`, stated here in ℕ as
`(i + (n - 1)) % n` (so the first tab wraps to the last), Home activates
`0`, End activates `n - 1`; for each of these keys `preventDefault` runs,
and for any other key nothing happens. -/
theorem keydown_navigation (n i : Nat) (hn : 0 < n) (hi : i < n) :
    keydownNextIndex "ArrowRight" i n = some ((i + 1) % n) ∧
    keydownNextIndex "ArrowLeft" i n = some ((i + (n - 1)) % n) ∧
    keydownNextIndex "Home" i n = some 0 ∧
    keydownNextIndex "End" i n = some (n - 1) ∧
    keydownNextIndex "ArrowRight" (n - 1) n = some 0 ∧
    keydownNextIndex "ArrowLeft" 0 n = some (n - 1) ∧
    keydownNextIndex "Tab" i n = none ∧
    (∀ (cats : List ResolvedCategory) (st : TabSetState), st.tabs.length = n →
      (keydownStep cats st i "ArrowRight").1 = true ∧
      (keydownStep cats st i "ArrowLeft").1 = true ∧
      (keydownStep cats st i "Home").1 = true ∧
      (keydownStep cats st i "End").1 = true ∧
      (keydownStep cats st i "Tab").1 = false ∧
      (keydownStep cats st i "ArrowRight").2 = activate cats ((i + 1) % n) true st) := by
  have harrow : ∀ (j : Nat), keydownNextIndex "ArrowLeft" j n = some ((j + (n - 1)) % n) := by
    intro j
    unfold keydownNextIndex
    rw [if_neg (by decide), if_pos rfl, jsWrapLeft j n hn]
  have hleft : keydownNextIndex "ArrowLeft" i n = some ((i + (n - 1)) % n) := harrow i
  have hwrapR : keydownNextIndex "ArrowRight" (n - 1) n = some 0 := by
    have h1 : (n - 1 + 1) % n = 0 := by
      have h2 : n - 1 + 1 = n := by omega
      simp [h2]
    unfold keydownNextIndex
    rw [if_pos rfl, h1]
  have hwrapL : keydownNextIndex "ArrowLeft" 0 n = some (n - 1) := by
    rw [harrow 0]
    have h3 : n - 1 < n := by omega
    rw [Nat.zero_add, Nat.mod_eq_of_lt h3]
  refine ⟨rfl, hleft, rfl, rfl, hwrapR, hwrapL, rfl, ?_⟩
  intro cats st hst
  subst hst
  exact ⟨rfl, by simp [keydownStep, hleft], rfl, rfl, rfl, rfl⟩

/-- Witness for C6 with three tabs and the middle tab focused. -/
theorem keydown_navigation_witness :
    (0 < 3) ∧ (1 < 3) ∧
    keydownNextIndex "ArrowRight" 1 3 = some 2 ∧
    keydownNextIndex "ArrowLeft" 1 3 = some 0 ∧
    keydownNextIndex "Home" 1 3 = some 0 ∧
    keydownNextIndex "End" 1 3 = some 2 ∧
    keydownNextIndex "ArrowRight" 2 3 = some 0 ∧
    keydownNextIndex "ArrowLeft" 0 3 = some 2 := by
  have h := keydown_navigation 3 1 (by decide) (by decide)
  exact ⟨by decide, by decide, h.1, h.2.1, h.2.2.1, h.2.2.2.1, h.2.2.2.2.1, h.2.2.2.2.2.1⟩

theorem activate_urlHash_of_not_setHash (cats : List ResolvedCategory) (i : Nat)
    (st : TabSetState) : (activate cats i false st).urlHash = st.urlHash := rfl

/-- Claim C7: the initial activation selects the index of the category
named by the load-time fragment when one matches and index 0 otherwise;
it runs `activate` with `setHash = false`, which never rewrites the hash;
a `hashchange` whose fragment matches no rendered category activates
nothing; and the tab set produced by a successful `renderPortfolio` call
still carries the unmodified load-time hash. -/
theorem hash_sync (cats : List ResolvedCategory) (rawHash newHash : String)
    (st : TabSetState) (i : Nat) (m : Manifest) :
    (∀ j, cats.findIdx? (fun c => c.name = stripHash rawHash) = some j →
      initialIndex cats rawHash = j) ∧
    (cats.findIdx? (fun c => c.name = stripHash rawHash) = none →
      initialIndex cats rawHash = 0) ∧
    ((activate cats i false st).urlHash = st.urlHash) ∧
    (cats.findIdx? (fun c => c.name = stripHash newHash) = none →
      hashchangeHandler cats newHash st = st) ∧
    (∀ st', (renderPortfolioRun true false (some m) rawHash).tabSet = some st' →
      st'.urlHash = rawHash) := by
  refine ⟨?_, ?_, rfl, ?_, ?_⟩
  · intro j hj
    simp only [initialIndex, jsFindIndex, hj]
    omega
  · intro hj
    simp [initialIndex, jsFindIndex, hj]
  · intro hj
    simp [hashchangeHandler, jsFindIndex, hj]
  · intro st' hst
    by_cases hc : (prioritizeCategories m.categories).isEmpty <;>
      simp [renderPortfolioRun, hc] at hst
    rw [← hst]
    rfl

/-- Witness for C7 at a single-category tab set whose name matches the
load-time fragment but not the later fragment. -/
theorem hash_sync_witness :
    ([ResolvedCategory.mk "food" "Food" ["a.jpg"]].findIdx?
        (fun c => c.name = stripHash "#food") = some 0) ∧
    initialIndex [ResolvedCategory.mk "food" "Food" ["a.jpg"]] "#food" = 0 ∧
    ([ResolvedCategory.mk "food" "Food" ["a.jpg"]].findIdx?
        (fun c => c.name = stripHash "#nope") = none) ∧
    hashchangeHandler [ResolvedCategory.mk "food" "Food" ["a.jpg"]] "#nope"
        (TabSetState.mk [] [] "#food" none)
      = TabSetState.mk [] [] "#food" none := by
  have h := hash_sync [ResolvedCategory.mk "food" "Food" ["a.jpg"]] "#food" "#nope"
    (TabSetState.mk [] [] "#food" none) 0 (Manifest.mk "" [])
  exact ⟨by decide, h.1 0 (by decide), by decide, h.2.2.2.1 (by decide)⟩

theorem activateTabsAux_get? (index : Nat) :
    ∀ (k j : Nat) (ts : List TabRender),
      (activateTabsAux index k ts).get? j
        = (ts.get? j).map (fun t => setTabSelected t (k + j == index)) := by
  intro k j ts
  induction ts generalizing k j with
  | nil => simp [activateTabsAux]
  | cons t rest ih =>
    cases j with
    | zero => simp [activateTabsAux]
    | succ j =>
      simp only [activateTabsAux, List.get?_cons_succ]
      rw [ih (k + 1) j]
      have h : k + 1 + j = k + (j + 1) := by omega
      rw [h]

theorem activatePanelsAux_get? (index : Nat) :
    ∀ (k j : Nat) (ps : List PanelRender),
      (activatePanelsAux index k ps).get? j
        = (ps.get? j).map (fun p => { p with hidden := (k + j) != index }) := by
  intro k j ps
  induction ps generalizing k j with
  | nil => simp [activatePanelsAux]
  | cons p rest ih =>
    cases j with
    | zero => simp [activatePanelsAux]
    | succ j =>
      simp only [activatePanelsAux, List.get?_cons_succ]
      rw [ih (k + 1) j]
      have h : k + 1 + j = k + (j + 1) := by omega
      rw [h]

theorem activatePanelsAux_visible_count (index : Nat) :
    ∀ (k : Nat) (ps : List PanelRender),
      ((activatePanelsAux index k ps).filter (fun p => !p.hidden)).length
        = if k ≤ index ∧ index < k + ps.length then 1 else 0 := by
  intro k ps
  induction ps generalizing k with
  | nil =>
    simp only [activatePanelsAux, List.filter_nil, List.length_nil]
    rw [if_neg (by omega)]
  | cons p rest ih =>
    simp only [activatePanelsAux, List.filter_cons, List.length_cons]
    by_cases hk : k = index
    · subst hk
      have hh : (!({ p with hidden := k != k } : PanelRender).hidden) = true := by simp
      rw [if_pos hh, List.length_cons, ih (k + 1), if_neg (by omega), if_pos (by omega)]
    · have hh : ¬(!({ p with hidden := k != index } : PanelRender).hidden) = true := by
        simp [hk]
      rw [if_neg hh, ih (k + 1)]
      by_cases h1 : k + 1 ≤ index ∧ index < k + 1 + rest.length
      · rw [if_pos h1, if_pos (by omega)]
      · rw [if_neg h1, if_neg (by omega)]

/-- Claim C1: `activate(i, _)` yields `aria-selected = "true"` on exactly
the tab at index `i` and `"false"` on every other tab, `tabIndex = 0` on
exactly the tab at `i` and `-1` on the rest, and leaves exactly one panel
visible, namely the one at `i` (`hidden = false` iff the panel index is
`i`), all others hidden. -/
theorem activate_selected_invariant (cats : List ResolvedCategory)
    (st : TabSetState) (i : Nat) (b : Bool) (hi : i < st.panels.length) :
    (∀ j t, (activate cats i b st).tabs.get? j = some t →
      t.ariaSelected = (if j = i then "true" else "false") ∧
      t.tabIndex = (if j = i then 0 else -1)) ∧
    (∀ j p, (activate cats i b st).panels.get? j = some p →
      (p.hidden = false ↔ j = i)) ∧
    ((activate cats i b st).panels.filter (fun p => !p.hidden)).length = 1 := by
  refine ⟨?_, ?_, ?_⟩
  · intro j t ht
    have h : (activate cats i b st).tabs = activateTabsAux i 0 st.tabs := rfl
    rw [h, activateTabsAux_get? i 0 j st.tabs] at ht
    cases hj : st.tabs.get? j with
    | none => rw [hj] at ht; cases ht
    | some t0 =>
      rw [hj] at ht
      have ht' : setTabSelected t0 (0 + j == i) = t := by
        simpa using ht
      rw [← ht']
      by_cases hji : j = i
      · simp [setTabSelected, hji]
      · have : (0 + j == i) = false := by simp [hji]
        simp [setTabSelected, this, hji]
  · intro j p hp
    have h : (activate cats i b st).panels = activatePanelsAux i 0 st.panels := rfl
    rw [h, activatePanelsAux_get? i 0 j st.panels] at hp
    cases hj : st.panels.get? j with
    | none => rw [hj] at hp; cases hp
    | some p0 =>
      rw [hj] at hp
      have hp' : ({ p0 with hidden := (0 + j) != i } : PanelRender) = p := by
        simpa using hp
      rw [← hp']
      by_cases hji : j = i <;> simp [hji]
  · have h : (activate cats i b st).panels = activatePanelsAux i 0 st.panels := rfl
    rw [h, activatePanelsAux_visible_count i 0 st.panels]
    have hcond : 0 ≤ i ∧ i < 0 + st.panels.length := by omega
    rw [if_pos hcond]

/-- Witness for C1: a two-tab, two-panel state activated at index 1. -/
theorem activate_selected_invariant_witness :
    (1 < 2) ∧
    ((activate []
        1 false
        (TabSetState.mk
          [TabRender.mk "tab-a" "A" "false" (-1), TabRender.mk "tab-b" "B" "false" (-1)]
          [PanelRender.mk "panel-a" true [], PanelRender.mk "panel-b" true []]
          "" none)).panels.filter (fun p => !p.hidden)).length = 1 :=
  ⟨by decide,
   (activate_selected_invariant []
     (TabSetState.mk
       [TabRender.mk "tab-a" "A" "false" (-1), TabRender.mk "tab-b" "B" "false" (-1)]
       [PanelRender.mk "panel-a" true [], PanelRender.mk "panel-b" true []]
       "" none)
     1 false (by decide)).2.2⟩

theorem byNameGet_mem {valid : List Category} {nm : String} {c : Category}
    (h : byNameGet valid nm = some c) : c ∈ valid :=
  List.mem_reverse.mp (List.mem_of_find?_eq_some h)

theorem byNameGet_name {valid : List Category} {nm : String} {c : Category}
    (h : byNameGet valid nm = some c) : c.name = nm := by
  have hp := List.find?_some h
  simpa using hp

theorem byNameGet_isSome_iff (valid : List Category) (nm : String) :
    (byNameGet valid nm).isSome = true ↔ ∃ c ∈ valid, c.name = nm := by
  simp [byNameGet, List.find?_isSome, List.mem_reverse]

theorem mem_prioritizeCategories {cats : List Category} {r : ResolvedCategory}
    (hr : r ∈ prioritizeCategories cats) :
    ∃ c ∈ validCats cats, retitle c = r := by
  simp only [prioritizeCategories] at hr
  cases hp : ((CATEGORY_ORDER.filterMap (byNameGet (validCats cats))).map retitle).isEmpty with
  | true =>
    rw [hp] at hr
    simp only [Bool.not_true, Bool.false_eq_true, if_false] at hr
    obtain ⟨c, hc, rfl⟩ := List.mem_map.mp hr
    exact ⟨c, hc, rfl⟩
  | false =>
    rw [hp] at hr
    simp only [Bool.not_false, if_true] at hr
    obtain ⟨c, hcf, rfl⟩ := List.mem_map.mp hr
    obtain ⟨nm, _, hsome⟩ := List.mem_filterMap.mp hcf
    exact ⟨c, byNameGet_mem hsome, rfl⟩

/-- Claim C2 (counterexample): a category named `food` carrying the
explicit title `My Food` is rendered with the fixed lookup title `Food`,
not with its explicit title, so the explicit title does not take
precedence. -/
theorem resolveTitle_counterexample :
    (Category.mk "food" (some "My Food") ["a.jpg"]).title = some "My Food" ∧
    (prioritizeCategories [Category.mk "food" (some "My Food") ["a.jpg"]]).map
      (fun r => r.title) = ["Food"] ∧
    CATEGORY_TITLES "food" = some "Food" ∧
    "Food" ≠ "My Food" := by
  refine ⟨rfl, ?_, rfl, by decide⟩
  decide

/-- Claim C2 (amended): the title of every resolved category comes from
an image-bearing source category via the override in which the
fixed lookup by category name takes precedence; the explicit title is
used only when the lookup has no entry (and the explicit title is a
non-empty string); the humanized name is used only when the lookup has no
entry and no non-empty explicit title is present. -/
theorem resolveTitle_precedence :
    (∀ (cats : List Category) (r : ResolvedCategory), r ∈ prioritizeCategories cats →
      ∃ c ∈ validCats cats, c.name = r.name ∧ c.images = r.images ∧ r.title = resolveTitle c) ∧
    (∀ (c : Category) (t : String), CATEGORY_TITLES c.name = some t → resolveTitle c = t) ∧
    (∀ (c : Category) (t : String), CATEGORY_TITLES c.name = none → c.title = some t →
      t ≠ "" → resolveTitle c = t) ∧
    (∀ (c : Category), CATEGORY_TITLES c.name = none →
      (c.title = none ∨ c.title = some "") → resolveTitle c = humanize c.name) ∧
    humanize "photo-tours" = "Photo Tours" ∧
    humanize "brand_creative" = "Brand Creative" := by
  refine ⟨?_, ?_, ?_, ?_, by decide, by decide⟩
  · intro cats r hr
    obtain ⟨c, hc, rfl⟩ := mem_prioritizeCategories hr
    exact ⟨c, hc, rfl, rfl, rfl⟩
  · intro c t h
    simp [resolveTitle, h]
  · intro c t h ht hne
    simp [resolveTitle, h, ht, jsOrOpt, jsOr, hne]
  · intro c h hd
    rcases hd with hd | hd <;> simp [resolveTitle, h, hd, jsOrOpt, jsOr]

/-- Witness for the amended C2: the lookup wins over an explicit title for
`food`; an explicit title wins for an unlisted name; the humanized name is
the fallback for an unlisted name with no explicit title. -/
theorem resolveTitle_precedence_witness :
    CATEGORY_TITLES "food" = some "Food" ∧
    resolveTitle (Category.mk "food" (some "My Food") ["a.jpg"]) = "Food" ∧
    CATEGORY_TITLES "weddings" = none ∧
    resolveTitle (Category.mk "weddings" (some "Weddings by Elle") ["w.jpg"]) = "Weddings by Elle" ∧
    resolveTitle (Category.mk "photo-walks" none ["p.jpg"]) = humanize "photo-walks" :=
  ⟨rfl,
   resolveTitle_precedence.2.1 (Category.mk "food" (some "My Food") ["a.jpg"]) "Food" rfl,
   rfl,
   resolveTitle_precedence.2.2.1 (Category.mk "weddings" (some "Weddings by Elle") ["w.jpg"])
     "Weddings by Elle" rfl rfl (by decide),
   resolveTitle_precedence.2.2.2.1 (Category.mk "photo-walks" none ["p.jpg"]) rfl (Or.inl rfl)⟩

theorem filterMap_byNameGet_names (valid : List Category) :
    ∀ (l : List String),
      ((l.filterMap (byNameGet valid)).map (fun c => c.name))
        = l.filter (fun nm => (byNameGet valid nm).isSome) := by
  intro l
  induction l with
  | nil => rfl
  | cons nm rest ih =>
    cases h : byNameGet valid nm with
    | none => simp [List.filterMap_cons, h, ih, List.filter_cons]
    | some c => simp [List.filterMap_cons, h, ih, List.filter_cons, byNameGet_name h]

/-- Claim C3 (counterexample): a manifest with two non-empty categories,
`weddings` (not in the priority list) and `food` (in it), resolves to the
single category `food`: the non-empty `weddings` category is removed, so
the resolved list is not a reordering of all non-empty categories. -/
theorem prioritizeCategories_drops_counterexample :
    (validCats [Category.mk "weddings" none ["w.jpg"], Category.mk "food" none ["a.jpg"]]).length
      = 2 ∧
    (prioritizeCategories
        [Category.mk "weddings" none ["w.jpg"], Category.mk "food" none ["a.jpg"]]).map
      (fun r => r.name) = ["food"] := by
  refine ⟨rfl, ?_⟩
  decide

/-- Claim C3 (amended): when at least one non-empty category bears a name
in the fixed priority list, the resolved list consists exactly of the
non-empty categories whose names occur in the priority list, in
priority-list order (non-empty categories with unlisted names are
dropped); when no non-empty category bears a prioritized name, the
resolved list is all non-empty categories in manifest order. -/
theorem prioritizeCategories_amended (cats : List Category) :
    ((∃ c ∈ validCats cats, c.name ∈ CATEGORY_ORDER) →
      (prioritizeCategories cats).map (fun r => r.name)
        = CATEGORY_ORDER.filter (fun nm => (validCats cats).any (fun c => c.name = nm))) ∧
    ((∀ c ∈ validCats cats, c.name ∉ CATEGORY_ORDER) →
      (prioritizeCategories cats).map (fun r => r.name)
        = (validCats cats).map (fun c => c.name)) := by
  have hpred : CATEGORY_ORDER.filter (fun nm => (byNameGet (validCats cats) nm).isSome)
      = CATEGORY_ORDER.filter (fun nm => (validCats cats).any (fun c => c.name = nm)) := by
    apply List.filter_congr
    intro nm _
    rcases hb : (byNameGet (validCats cats) nm).isSome with _ | _
    · have hnot : ¬∃ c ∈ validCats cats, c.name = nm := by
        rw [← byNameGet_isSome_iff]
        simp [hb]
      symm
      rw [List.any_eq_false]
      intro c hc
      simp only [decide_eq_true_eq]
      intro heq
      exact hnot ⟨c, hc, heq⟩
    · have hyes := (byNameGet_isSome_iff (validCats cats) nm).mp hb
      symm
      rw [List.any_eq_true]
      obtain ⟨c, hc, heq⟩ := hyes
      exact ⟨c, hc, by simp [heq]⟩
  constructor
  · intro hex
    have hne : (CATEGORY_ORDER.filterMap (byNameGet (validCats cats))) ≠ [] := by
      obtain ⟨c, hc, hcn⟩ := hex
      intro hnil
      rw [List.filterMap_eq_nil_iff] at hnil
      have hsome : (byNameGet (validCats cats) c.name).isSome = true :=
        (byNameGet_isSome_iff _ _).mpr ⟨c, hc, rfl⟩
      rw [hnil c.name hcn] at hsome
      cases hsome
    have hbranch : prioritizeCategories cats
        = (CATEGORY_ORDER.filterMap (byNameGet (validCats cats))).map retitle := by
      unfold prioritizeCategories
      rw [if_pos]
      simp [List.isEmpty_iff, hne]
    rw [hbranch, List.map_map]
    have hcomp : ((fun r : ResolvedCategory => r.name) ∘ retitle)
        = (fun c : Category => c.name) := rfl
    rw [hcomp, filterMap_byNameGet_names, hpred]
  · intro hall
    have hnil : (CATEGORY_ORDER.filterMap (byNameGet (validCats cats))) = [] := by
      rw [List.filterMap_eq_nil_iff]
      intro nm hnm
      cases h : byNameGet (validCats cats) nm with
      | none => rfl
      | some c =>
        have hc := byNameGet_mem h
        have hn := byNameGet_name h
        exact absurd (hn ▸ hnm) (hall c hc)
    have hbranch : prioritizeCategories cats = (validCats cats).map retitle := by
      simp only [prioritizeCategories]
      rw [hnil]
      simp
    rw [hbranch, List.map_map]
    rfl

/-- Witness for the amended C3: with `weddings` and `food` both non-empty
the resolved names are exactly the prioritized ones present (`food`); with
only `weddings` the manifest order is preserved. -/
theorem prioritizeCategories_amended_witness :
    (prioritizeCategories
        [Category.mk "weddings" none ["w.jpg"], Category.mk "food" none ["a.jpg"]]).map
      (fun r => r.name) = ["food"] ∧
    (prioritizeCategories [Category.mk "weddings" none ["w.jpg"]]).map
      (fun r => r.name) = ["weddings"] :=
  ⟨((prioritizeCategories_amended
      [Category.mk "weddings" none ["w.jpg"], Category.mk "food" none ["a.jpg"]]).1
      ⟨Category.mk "food" none ["a.jpg"], by decide, by decide⟩).trans (by decide),
   ((prioritizeCategories_amended [Category.mk "weddings" none ["w.jpg"]]).2
      (by decide)).trans (by decide)⟩

/-- Claim C9: when the gallery is connected and has rendered layout
boxes, `layoutMasonry` gives every gallery item the row span
`max(1, ceil((height + gap) / (MASONRY_ROW_HEIGHT + gap)))` with
`MASONRY_ROW_HEIGHT = 8`; when the gallery is not connected or has no
rendered layout boxes the recomputation is skipped entirely and nothing
is modified. -/
theorem layoutMasonry_spans (g : GalleryBox) :
    MASONRY_ROW_HEIGHT = 8 ∧
    (g.isConnected = true → g.clientRectsCount ≠ 0 →
      ((layoutMasonry g).children.length = g.children.length ∧
       ∀ (j : Nat) (item : GalleryItem), g.children.get? j = some item →
         item.isGalleryItem = true →
         (layoutMasonry g).children.get? j
           = some { item with
               gridRowSpan := some (max 1 ⌈(item.height + g.rowGap) / ((8 : ℚ) + g.rowGap)⌉) })) ∧
    ((g.isConnected = false ∨ g.clientRectsCount = 0) → layoutMasonry g = g) := by
  refine ⟨rfl, ?_, ?_⟩
  · intro hconn hrects
    have hL : layoutMasonry g
        = { g with children := g.children.map (layoutItem g.rowGap),
                   masonryEnabledClass := true } := by
      unfold layoutMasonry
      rw [hconn]
      simp [hrects]
    rw [hL]
    refine ⟨by simp, ?_⟩
    intro j item hj hitem
    simp only [List.get?_eq_getElem?] at hj ⊢
    simp only [List.getElem?_map, hj, Option.map_some]
    simp [layoutItem, hitem, MASONRY_ROW_HEIGHT]
  · intro h
    unfold layoutMasonry
    cases hc : g.isConnected with
    | false => simp
    | true =>
      rcases h with h | h
      · rw [hc] at h
        cases h
      · simp [h]

/-- Witness for C9: a connected single-item gallery with row gap 4 and a
measured item height of 10, plus a disconnected gallery left untouched. -/
theorem layoutMasonry_spans_witness :
    ((GalleryBox.mk true 1 4 [GalleryItem.mk true 10 none] false).isConnected = true) ∧
    ((GalleryBox.mk true 1 4 [GalleryItem.mk true 10 none] false).clientRectsCount ≠ 0) ∧
    ((layoutMasonry (GalleryBox.mk true 1 4 [GalleryItem.mk true 10 none] false)).children.get? 0
      = some (GalleryItem.mk true 10 (some (max 1 ⌈((10 : ℚ) + 4) / (8 + 4)⌉)))) ∧
    layoutMasonry (GalleryBox.mk false 0 4 [GalleryItem.mk true 10 none] false)
      = GalleryBox.mk false 0 4 [GalleryItem.mk true 10 none] false :=
  ⟨rfl, by decide,
   ((layoutMasonry_spans (GalleryBox.mk true 1 4 [GalleryItem.mk true 10 none] false)).2.1
      rfl (by decide)).2 0 (GalleryItem.mk true 10 none) rfl rfl,
   (layoutMasonry_spans (GalleryBox.mk false 0 4 [GalleryItem.mk true 10 none] false)).2.2
     (Or.inl rfl)⟩

end Gallery
